import Mathlib

/-!
# Verification of the case-images generation pipeline

Shallow embedding, in Lean 4, of the pure computational core of the
`case-images` repository: the profile normalizers and validation of the
profile extractor, the composition override, the deterministic variety
selector (SHA-256 seeded palette picks), the verified-generation loop,
the retry wrapper, the cue validation predicate of the instructions
pipeline, the record-text aggregation and the batch-driver loop guard.

Stateful/network pieces (model calls, blob writes) are modelled by
passing their outcomes in as explicit arguments (oracles); everything
else is translated function-by-function from the TypeScript source.
-/

namespace CaseImages

/-- Contiguous-sublist test on char lists (drives the substring test below). -/
def hasSubList (l sub : List Char) : Bool :=
  if sub.isPrefixOf l then true
  else
    match l with
    | [] => false
    | _ :: t => hasSubList t sub

/-- JS `String.prototype.toLowerCase`, as the char list it produces
(ASCII case mapping, which is all the normalizers' substrings need). -/
def lowerOf (raw : String) : List Char := raw.toList.map Char.toLower

/-- JS `String.prototype.includes` (substring test) against a char list. -/
def includesL (l : List Char) (sub : String) : Bool := hasSubList l sub.toList

/-- JS `String.prototype.trim` on a char list. -/
def trimList (l : List Char) : List Char :=
  ((l.dropWhile Char.isWhitespace).reverse.dropWhile Char.isWhitespace).reverse

/-! ## Profile normalizers (latest `process.ts` variant, `makeProfile` stage)

Each mirrors a `normalize*` function: lowercase the raw model output,
then map by substring containment, in the source's test order. -/

/-- `normalizeBuild`: substring mapping onto {slim, stocky, average}; `null` on no match. -/
def normalizeBuild (raw : String) : Option String :=
  let s := lowerOf raw
  if includesL s "slim" then some "slim"
  else if includesL s "stocky" then some "stocky"
  else if includesL s "average" then some "average"
  else none

/-- `normalizeGender`: substring mapping onto the two presentations; `null` on no match. -/
def normalizeGender (raw : String) : Option String :=
  let s := lowerOf raw
  if includesL s "female" then some "female-presenting"
  else if includesL s "male" then some "male-presenting"
  else none

/-- `normalizeSocio`: substring mapping, defaulting to `"unknown"`. -/
def normalizeSocio (raw : String) : String :=
  let s := lowerOf raw
  if includesL s "homeless" then "homeless"
  else if includesL s "struggling" then "struggling"
  else if includesL s "affluent" then "affluent"
  else if includesL s "average" then "average"
  else "unknown"

/-- `normalizeGlam`: substring mapping, defaulting to `"medium"`. -/
def normalizeGlam (raw : String) : String :=
  let s := lowerOf raw
  if includesL s "high" then "high"
  else if includesL s "low" then "low"
  else "medium"

/-- `normalizeRetouching`: substring mapping, defaulting to `"none"`. -/
def normalizeRetouching (raw : String) : String :=
  let s := lowerOf raw
  if includesL s "light" then "light"
  else "none"

/-- `normalizeSkinTone`: substring mapping, defaulting to `"unspecified"`. -/
def normalizeSkinTone (raw : String) : String :=
  let s := lowerOf raw
  if includesL s "very_dark" then "very_dark"
  else if includesL s "dark" then "dark"
  else if includesL s "medium" then "medium"
  else if includesL s "very_light" then "very_light"
  else if includesL s "light" then "light"
  else "unspecified"

/-- `normalizeHairTexture`: substring mapping, defaulting to `"unspecified"`. -/
def normalizeHairTexture (raw : String) : String :=
  let s := lowerOf raw
  if includesL s "coily" then "coily"
  else if includesL s "curly" then "curly"
  else if includesL s "wavy" then "wavy"
  else if includesL s "straight" then "straight"
  else "unspecified"

/-- `normalizeExplicitString`: trim; empty becomes `"unspecified"`. -/
def normalizeExplicitString (raw : String) : String :=
  let s := trimList raw.toList
  if s = [] then "unspecified" else ⟨s⟩

/-- "Mappable" for `normalizeSocio`: some substring of the closed set matches. -/
def socioMappable (raw : String) : Bool :=
  let s := lowerOf raw
  includesL s "homeless" || includesL s "struggling" ||
    includesL s "affluent" || includesL s "average"

/-- "Mappable" for `normalizeGlam`. -/
def glamMappable (raw : String) : Bool :=
  let s := lowerOf raw
  includesL s "high" || includesL s "low"

/-- "Mappable" for `normalizeRetouching`. -/
def retouchingMappable (raw : String) : Bool :=
  includesL (lowerOf raw) "light"

/-- "Mappable" for `normalizeSkinTone`. -/
def skinToneMappable (raw : String) : Bool :=
  let s := lowerOf raw
  includesL s "very_dark" || includesL s "dark" || includesL s "medium" ||
    includesL s "very_light" || includesL s "light"

/-- "Mappable" for `normalizeHairTexture`. -/
def hairTextureMappable (raw : String) : Bool :=
  let s := lowerOf raw
  includesL s "coily" || includesL s "curly" ||
    includesL s "wavy" || includesL s "straight"

/-! ## Profile data model (latest `process.ts` variant) -/

/-- `CompanionProfile`: role/gender/age/notes of the second person in a pair. -/
structure CompanionProfile where
  role : String
  gender_presentation : String
  age : String
  notes : String
deriving DecidableEq, Repr

/-- `VisualProfile` after validation; `composition`/`companion` are the
appended optional fields (absent, i.e. `none`, straight out of `makeProfile`). -/
structure VisualProfile where
  gender_presentation : String
  age : String
  build : String
  hair : String
  eyes : String
  facial_features : String
  appearance_findings : String
  cultural_origin : String
  ethnic_background : String
  skin_tone : String
  hair_texture : String
  socioeconomic : String
  glam_level : String
  retouching : String
  origin_cues : String
  clothing_type : String
  clothing_color : String
  accessories : String
  grooming : String
  makeup : String
  style_context : String
  notes : String
  background : String
  composition : Option String
  companion : Option CompanionProfile
deriving DecidableEq, Repr

/-- The model's parsed JSON profile, after the required-key check: every key
present, values coerced to strings the way the validation code reads them. -/
structure RawProfile where
  gender_presentation : String
  age : String
  build : String
  hair : String
  eyes : String
  facial_features : String
  appearance_findings : String
  cultural_origin : String
  ethnic_background : String
  skin_tone : String
  hair_texture : String
  socioeconomic : String
  glam_level : String
  retouching : String
  origin_cues : String
  clothing_type : String
  clothing_color : String
  accessories : String
  grooming : String
  makeup : String
  style_context : String
  notes : String
  background : String
deriving DecidableEq, Repr

/-- The two hard validation failures of `makeProfile` after parsing. -/
inductive ProfileError where
  | badGender (raw : String)
  | badBuild (raw : String)
deriving DecidableEq, Repr

/-- The validation/normalization tail of `makeProfile` (after JSON parsing and
the required-key check): hard-gate gender and build, normalize the soft enums,
force the two system-owned fields to the `"auto"` sentinel. -/
def validateProfile (p : RawProfile) : Except ProfileError VisualProfile :=
  match normalizeGender p.gender_presentation with
  | none => .error (.badGender p.gender_presentation)
  | some ng =>
    match normalizeBuild p.build with
    | none => .error (.badBuild p.build)
    | some nb =>
      .ok {
        gender_presentation := ng
        age := p.age
        build := nb
        hair := p.hair
        eyes := p.eyes
        facial_features := p.facial_features
        appearance_findings :=
          if trimList p.appearance_findings.toList = [] then "none"
          else p.appearance_findings
        cultural_origin := normalizeExplicitString p.cultural_origin
        ethnic_background := normalizeExplicitString p.ethnic_background
        skin_tone := normalizeSkinTone p.skin_tone
        hair_texture := normalizeHairTexture p.hair_texture
        socioeconomic := normalizeSocio p.socioeconomic
        glam_level := normalizeGlam p.glam_level
        retouching := normalizeRetouching p.retouching
        origin_cues := p.origin_cues
        clothing_type := p.clothing_type
        clothing_color := "auto"
        accessories := p.accessories
        grooming := p.grooming
        makeup := p.makeup
        style_context := p.style_context
        notes := p.notes
        background := "auto"
        composition := none
        companion := none
      }

/-- A parsed profile with an unmappable gender value (for the C4 witness). -/
def rawUnmappableGender : RawProfile :=
  { gender_presentation := "nonbinary", age := "34", build := "slim",
    hair := "short", eyes := "brown", facial_features := "-",
    appearance_findings := "none", cultural_origin := "", ethnic_background := "",
    skin_tone := "light", hair_texture := "wavy", socioeconomic := "average",
    glam_level := "low", retouching := "none", origin_cues := "none",
    clothing_type := "hoodie", clothing_color := "auto", accessories := "-",
    grooming := "-", makeup := "-", style_context := "-", notes := "-",
    background := "auto" }

/-! ## Age parsing and the child-pair override -/

/-- Decimal value of a digit list (how JS `Number` reads the matched digits). -/
def digitVal (l : List Char) : Nat :=
  l.foldl (fun a c => a * 10 + (c.toNat - 48)) 0

/-- Core of `parseAgeNumber`: the regex match takes up to three digits
starting at the first digit of the string; no digit means `null`. -/
def parseAgeList : List Char → Option Nat
  | [] => none
  | c :: rest =>
    if c.isDigit then
      some (digitVal ((c :: rest.takeWhile Char.isDigit).take 3))
    else parseAgeList rest

/-- `parseAgeNumber` from the latest `process.ts` variant. -/
def parseAgeNumber (s : String) : Option Nat := parseAgeList s.toList

/-- The synthesized companion of `forceChildPairIfNeeded`. -/
def defaultGuardian : CompanionProfile :=
  { role := "parent/guardian", gender_presentation := "female-presenting",
    age := "adult", notes := "child under 6 must be accompanied" }

/-- `forceChildPairIfNeeded`: parsed age below 6 forces composition `"pair"`
and synthesizes a guardian companion when none is set. -/
def forceChildPairIfNeeded (p : VisualProfile) : VisualProfile :=
  match parseAgeNumber p.age with
  | some n =>
    if n < 6 then
      { p with
        composition := some "pair"
        companion :=
          match p.companion with
          | none => some defaultGuardian
          | some c => some c }
    else p
  | none => p

/-- `CompositionDecision` as returned by `decideComposition` after its own
normalization (composition in {single, pair}; companion `null` for single). -/
structure CompositionDecision where
  composition : String
  reason : String
  evidence : String
  confidence : String
  companion : Option CompanionProfile
deriving DecidableEq, Repr

/-- Handler main path: attach the model's composition decision to the profile
(`profile.composition = comp.composition; profile.companion = comp.companion`)
then apply the hard child-pair override. -/
def applyCompositionDecision (p : VisualProfile) (comp : CompositionDecision) :
    VisualProfile :=
  forceChildPairIfNeeded
    { p with composition := some comp.composition, companion := comp.companion }

/-- `scanPair` branch of the handler: the final composition (model decision,
overridden to `"pair"` when the profile's parsed age is below 6) and the
companion reported on the row (the model's companion when the final
composition is `"pair"`, else `null`). -/
def scanPairRow (profileAge : String) (comp : CompositionDecision) :
    String × Option CompanionProfile :=
  let composition :=
    match parseAgeNumber profileAge with
    | some n => if n < 6 then "pair" else comp.composition
    | none => comp.composition
  (composition, if composition = "pair" then comp.companion else none)

/-- A sample validated profile (fields arbitrary) used to build witnesses. -/
def baseProfile : VisualProfile :=
  { gender_presentation := "female-presenting", age := "34", build := "slim",
    hair := "short", eyes := "brown", facial_features := "-",
    appearance_findings := "none", cultural_origin := "unspecified",
    ethnic_background := "unspecified", skin_tone := "light",
    hair_texture := "wavy", socioeconomic := "average", glam_level := "low",
    retouching := "none", origin_cues := "none", clothing_type := "hoodie",
    clothing_color := "auto", accessories := "-", grooming := "-",
    makeup := "-", style_context := "-", notes := "-", background := "auto",
    composition := none, companion := none }

/-- A profile whose age field is the word `"five"` (no digit). -/
def profileAgeFive : VisualProfile := { baseProfile with age := "five" }

/-- A profile whose age field is the digit string `"4"`. -/
def profileAge4 : VisualProfile := { baseProfile with age := "4" }

/-- A reachable `decideComposition` output for a `"single"` decision: its
normalization sets `companion` to `null` whenever composition is not pair. -/
def compSingle : CompositionDecision :=
  { composition := "single", reason := "", evidence := "",
    confidence := "low", companion := none }

/-! ## SHA-256 (for `seedFromText`)

`seedFromText` hashes `"caseId::caseText"` with SHA-256 and reads the first
four digest bytes as a big-endian unsigned integer. The hash is embedded
here in full over byte lists (`Nat` values < 256), with 32-bit words as
`Nat` reduced mod `2^32`. The round constants are derived, as in the FIPS
definition, from the fractional parts of the cube/square roots of the first
primes rather than transcribed. -/

/-- Reduce to a 32-bit word. -/
def w32 (n : Nat) : Nat := n % 4294967296

/-- Right-rotation of a 32-bit word. -/
def rotr32 (x n : Nat) : Nat := w32 ((x >>> n) ||| (x <<< (32 - n)))

/-- Bitwise complement of a 32-bit word. -/
def not32 (x : Nat) : Nat := 4294967295 - x

/-- The first 8 primes (square-root fractional parts give the initial hash). -/
def first8Primes : List Nat := [2, 3, 5, 7, 11, 13, 17, 19]

/-- The first 64 primes (cube-root fractional parts give the round constants). -/
def first64Primes : List Nat :=
  [2, 3, 5, 7, 11, 13, 17, 19, 23, 29, 31, 37, 41, 43, 47, 53,
   59, 61, 67, 71, 73, 79, 83, 89, 97, 101, 103, 107, 109, 113, 127, 131,
   137, 139, 149, 151, 157, 163, 167, 173, 179, 181, 191, 193, 197, 199, 211, 223,
   227, 229, 233, 239, 241, 251, 257, 263, 269, 271, 277, 281, 283, 293, 307, 311]

/-- Bisection step for the integer cube root (invariant: `lo^3 ≤ n < hi^3`). -/
def icbrtAux (n : Nat) : Nat → Nat → Nat → Nat
  | 0, lo, _ => lo
  | fuel + 1, lo, hi =>
    if hi ≤ lo + 1 then lo
    else
      let mid := (lo + hi) / 2
      if mid ^ 3 ≤ n then icbrtAux n fuel mid hi else icbrtAux n fuel lo mid

/-- Integer cube root by bisection. -/
def icbrt (n : Nat) : Nat := icbrtAux n 200 0 (n + 1)

/-- First 32 fractional bits of the cube root of `p`. -/
def fracCbrt32 (p : Nat) : Nat := icbrt (p * 2 ^ 96) % 4294967296

/-- First 32 fractional bits of the square root of `p`. -/
def fracSqrt32 (p : Nat) : Nat := Nat.sqrt (p * 2 ^ 64) % 4294967296

/-- The 64 SHA-256 round constants. -/
def roundK : List Nat := first64Primes.map fracCbrt32

/-- The initial SHA-256 hash value. -/
def hashInit : List Nat := first8Primes.map fracSqrt32

/-- Big-endian byte expansion (`k` bytes) of a natural number. -/
def beBytes (k : Nat) (n : Nat) : List Nat :=
  (List.range k).map (fun i => n / 2 ^ (8 * (k - 1 - i)) % 256)

/-- Group bytes into big-endian 32-bit words. -/
def bytesToWords : List Nat → List Nat
  | b0 :: b1 :: b2 :: b3 :: rest =>
    (b0 * 16777216 + b1 * 65536 + b2 * 256 + b3) :: bytesToWords rest
  | _ => []

/-- SHA-256 padding: `0x80`, zeros to 56 mod 64, 8-byte big-endian bit length. -/
def sha256Pad (msg : List Nat) : List Nat :=
  let padZeros := (64 - (msg.length + 9) % 64) % 64
  msg ++ [128] ++ List.replicate padZeros 0 ++ beBytes 8 (8 * msg.length)

/-- Split a word list into blocks of 16 words. -/
def toBlocks (ws : List Nat) : List (List Nat) :=
  if hne : ws = [] then []
  else ws.take 16 :: toBlocks (ws.drop 16)
termination_by ws.length
decreasing_by
  have : 0 < ws.length := List.length_pos.mpr hne
  simp [List.length_drop]
  omega

/-- The 64-entry SHA-256 message schedule of one block. -/
def schedule (m : List Nat) : List Nat :=
  (List.range 64).foldl
    (fun w t =>
      if t < 16 then w ++ [m.getD t 0]
      else
        let w15 := w.getD (t - 15) 0
        let w2 := w.getD (t - 2) 0
        let s0 := (rotr32 w15 7) ^^^ (rotr32 w15 18) ^^^ (w15 >>> 3)
        let s1 := (rotr32 w2 17) ^^^ (rotr32 w2 19) ^^^ (w2 >>> 10)
        w ++ [w32 (w.getD (t - 16) 0 + s0 + w.getD (t - 7) 0 + s1)])
    []

/-- The eight SHA-256 working registers. -/
structure Hash8 where
  a : Nat
  b : Nat
  c : Nat
  d : Nat
  e : Nat
  f : Nat
  g : Nat
  h : Nat
deriving DecidableEq, Repr

/-- One SHA-256 compression round. -/
def roundStep (s : Hash8) (k w : Nat) : Hash8 :=
  let bigS1 := (rotr32 s.e 6) ^^^ (rotr32 s.e 11) ^^^ (rotr32 s.e 25)
  let ch := (s.e &&& s.f) ^^^ (not32 s.e &&& s.g)
  let t1 := w32 (s.h + bigS1 + ch + k + w)
  let bigS0 := (rotr32 s.a 2) ^^^ (rotr32 s.a 13) ^^^ (rotr32 s.a 22)
  let maj := (s.a &&& s.b) ^^^ (s.a &&& s.c) ^^^ (s.b &&& s.c)
  let t2 := w32 (bigS0 + maj)
  ⟨w32 (t1 + t2), s.a, s.b, s.c, w32 (s.d + t1), s.e, s.f, s.g⟩

/-- Compress one 16-word block into the running hash value. -/
def compressBlock (hv : List Nat) (m : List Nat) : List Nat :=
  let ws := schedule m
  let init : Hash8 :=
    ⟨hv.getD 0 0, hv.getD 1 0, hv.getD 2 0, hv.getD 3 0,
     hv.getD 4 0, hv.getD 5 0, hv.getD 6 0, hv.getD 7 0⟩
  let s := (roundK.zip ws).foldl (fun s kw => roundStep s kw.1 kw.2) init
  [w32 (hv.getD 0 0 + s.a), w32 (hv.getD 1 0 + s.b),
   w32 (hv.getD 2 0 + s.c), w32 (hv.getD 3 0 + s.d),
   w32 (hv.getD 4 0 + s.e), w32 (hv.getD 5 0 + s.f),
   w32 (hv.getD 6 0 + s.g), w32 (hv.getD 7 0 + s.h)]

/-- SHA-256 of a byte list, as its 32 digest bytes. -/
def sha256Bytes (msg : List Nat) : List Nat :=
  let hv := (toBlocks (bytesToWords (sha256Pad msg))).foldl compressBlock hashInit
  (hv.map (beBytes 4)).flatten

/-- UTF-8 encoding of one scalar value. -/
def utf8Bytes (c : Char) : List Nat :=
  let n := c.toNat
  if n < 128 then [n]
  else if n < 2048 then [192 + n / 64, 128 + n % 64]
  else if n < 65536 then [224 + n / 4096, 128 + n / 64 % 64, 128 + n % 64]
  else [240 + n / 262144, 128 + n / 4096 % 64, 128 + n / 64 % 64, 128 + n % 64]

/-- UTF-8 bytes of a string. -/
def strUtf8 (s : String) : List Nat := (s.toList.map utf8Bytes).flatten

/-- `seedFromText`: SHA-256 over `` `${caseId}::${text}` `` (UTF-8), first four
digest bytes read as a big-endian unsigned 32-bit integer. -/
def seedFromText (caseId : Nat) (text : String) : Nat :=
  let d := sha256Bytes (strUtf8 (toString caseId ++ "::" ++ text))
  d.getD 0 0 * 16777216 + d.getD 1 0 * 65536 + d.getD 2 0 * 256 + d.getD 3 0

/-! ## Deterministic variety selection (latest `process.ts` variant) -/

/-- The background palette (`BACKGROUNDS`). -/
def BACKGROUNDS : List String :=
  ["very light neutral grey (#f7f7f7) seamless studio background with a subtle gradient",
   "very light neutral grey (#f6f6f6) paper sweep background, evenly lit",
   "very pale grey (#f8f8f8) soft vignette, still very light",
   "off-white grey (#fafafa) seamless background, no color tint"]

/-- The clothing-color palette (`CLOTHING_COLORS`). -/
def CLOTHING_COLORS : List String :=
  ["navy", "cobalt blue", "royal blue", "deep teal", "forest green",
   "emerald green", "burgundy", "plum", "black", "white", "cream",
   "soft pastel blue", "soft pastel green", "soft lavender"]

/-- `pick`: `arr[seed % arr.length]`. -/
def pick (arr : List String) (seed : Nat) : String :=
  arr.getD (seed % arr.length) ""

/-- `ensureNoBackgroundClothingClash`: white/cream on an off-white background
falls back to navy. -/
def ensureNoBackgroundClothingClash (clothingColor background : String) : String :=
  let c := lowerOf clothingColor
  let b := lowerOf background
  if (includesL c "white" || includesL c "cream") &&
      (includesL b "off-white" || includesL b "#fafafa") then "navy"
  else clothingColor

/-- The handler's deterministic background / clothing-color resolution for one
seed (lines `const background = pick(...); let clothingColor = pick(...);
clothingColor = ensureNoBackgroundClothingClash(...)`). -/
def resolveVariety (seed : Nat) : String × String :=
  let background := pick BACKGROUNDS seed
  let clothingColor := pick CLOTHING_COLORS (seed + 17)
  (background, ensureNoBackgroundClothingClash clothingColor background)

/-- The handler's overwrite of the two system-owned profile fields with the
seed-selected palette entries (`profile.background = background;
profile.clothing_color = clothingColor`). -/
def applyVarietySelection (p : VisualProfile) (caseId : Nat) (caseText : String) :
    VisualProfile :=
  let r := resolveVariety (seedFromText caseId caseText)
  { p with background := r.1, clothing_color := r.2 }

/-! ## Verified-generation loop (`generateVerifiedHeadshot`, latest variant)

The network effects are abstracted as oracles: `gen k` is the base64 payload
produced by the image model on attempt `k`, and each check oracle answers the
corresponding `visionYesNo` question for a given payload. -/

/-- The result record of `generateVerifiedHeadshot`. -/
structure GenResult where
  b64 : String
  attempts : Nat
  peopleOk : Bool
  genderOk : Bool
  clothingOk : Bool
  childAdultOk : Bool
deriving DecidableEq, Repr

/-- The four verification oracles (person count, gender, clothing,
child+adult), each a function of the generated payload. -/
structure VerifyOracles where
  people : String → Bool
  gender : String → Bool
  clothing : String → Bool
  childAdult : String → Bool

/-- One loop iteration's outcome: generate, then run the checks with the
source's short-circuit (gender/clothing/child-adult are scored `false`
without being asked when the person count fails; the child-adult check is
`true` when not required). -/
def attemptOutcome (gen : Nat → String) (o : VerifyOracles)
    (requireChildAdult : Bool) (k : Nat) : GenResult :=
  let b64 := gen k
  let peopleOk := o.people b64
  let genderOk := if peopleOk then o.gender b64 else false
  let clothingOk := if peopleOk then o.clothing b64 else false
  let childAdultOk :=
    if requireChildAdult then (if peopleOk then o.childAdult b64 else false)
    else true
  ⟨b64, k, peopleOk, genderOk, clothingOk, childAdultOk⟩

/-- All applicable checks of one attempt passed together. -/
def allOk (r : GenResult) : Bool :=
  r.peopleOk && r.genderOk && r.clothingOk && r.childAdultOk

/-- `generateVerifiedHeadshot`: attempts 1, 2, 3 in order; return on the
first attempt whose checks all pass; after the third, return the last
payload with the third attempt's flags (`attempts` = 3 either way). -/
def generateVerifiedHeadshot (gen : Nat → String) (o : VerifyOracles)
    (requireChildAdult : Bool) : GenResult :=
  let a1 := attemptOutcome gen o requireChildAdult 1
  if allOk a1 then a1
  else
    let a2 := attemptOutcome gen o requireChildAdult 2
    if allOk a2 then a2
    else attemptOutcome gen o requireChildAdult 3

/-! ## Retry wrapper (`withRetry` / `isRetryableStatus`, `process.ts`) -/

/-- A thrown error, as the retry wrapper reads it: an optional HTTP status
(`e?.status || e?.statusCode`) plus an opaque payload. -/
structure RemoteErr where
  status : Option Nat
  message : String
deriving DecidableEq, Repr

/-- `isRetryableStatus`: 429 or any status at least 500. -/
def isRetryableStatus : Option Nat → Bool
  | none => false
  | some s => s == 429 || s ≥ 500

/-- One invocation of the retry loop from attempt index `i`. `result` is the
value returned or the error thrown (`.error none` is the `undefined` last
error of a zero-try budget), `calls` counts invocations of the operation and
`sleeps` the backoff delays in order. -/
structure RetryOut (α : Type) where
  result : Except (Option RemoteErr) α
  calls : Nat
  sleeps : List Nat
deriving Repr

/-- The retry loop of `withRetry` from attempt index `i` (the operation's
outcome on attempt `i` is `f i`): stop on success; on failure break — and
throw — when the status is not retryable or the budget is exhausted,
otherwise sleep `800 * (i + 1)` ms and continue. -/
def withRetryFrom (f : Nat → Except RemoteErr α) (tries i : Nat) : RetryOut α :=
  if h : i < tries then
    match f i with
    | .ok a => ⟨.ok a, 1, []⟩
    | .error e =>
      if ¬ isRetryableStatus e.status ∨ i = tries - 1 then ⟨.error (some e), 1, []⟩
      else
        let r := withRetryFrom f tries (i + 1)
        ⟨r.result, r.calls + 1, 800 * (i + 1) :: r.sleeps⟩
  else ⟨.error none, 0, []⟩
termination_by tries - i
decreasing_by omega

/-- `withRetry` with its attempt budget (default 3 at every call site). -/
def withRetry (f : Nat → Except RemoteErr α) (tries : Nat := 3) : RetryOut α :=
  withRetryFrom f tries 0

/-! ## Record aggregation (`buildRecordText` / `getCaseText`, and the
instructions pipeline's `uniqPreserve` / `joinManyIndexed`) -/

/-- The known field list (`CASE_FIELDS`). -/
def CASE_FIELDS : List String :=
  ["Name", "Age", "PMHx Record", "DHx", "Medical Notes", "Medical Notes Content",
   "Notes Photo", "Results", "Results Content", "Instructions", "Opening Sentence",
   "Divulge Freely", "Divulge Asked", "PMHx RP", "Social History", "Family History",
   "ICE", "Reaction"]

/-- One record's fields: key/value pairs in object-insertion order, values
already display-strings (`normalizeFieldValue`); the empty string stands for
a null/empty value, which `buildRecordText` drops. -/
def RecordFields := List (String × String)

/-- Lookup of a field value in a record (JS property access). -/
def fieldVal (fields : List (String × String)) (k : String) : String :=
  match fields.find? (fun kv => kv.1 == k) with
  | some kv => kv.2
  | none => ""

/-- `buildRecordText`: label-prefixed lines for the known fields in
`CASE_FIELDS` order, then for any extra fields in record order, skipping
empty values; lines joined by a newline. -/
def buildRecordText (fields : List (String × String)) : String :=
  let known := (CASE_FIELDS.filter (fun k => fieldVal fields k ≠ "")).map
    (fun k => k ++ ": " ++ fieldVal fields k)
  let extra := (fields.filter
    (fun kv => ¬ CASE_FIELDS.contains kv.1 ∧ kv.2 ≠ "")).map
    (fun kv => kv.1 ++ ": " ++ kv.2)
  String.intercalate "\n" (known ++ extra)

/-- The pure tail of `getCaseText`: per-record texts, empties dropped, joined
by the record separator; no records gives the empty blob. -/
def combineCaseText (records : List (List (String × String))) : String :=
  String.intercalate "\n\n---\n\n"
    ((records.map buildRecordText).filter (fun t => t ≠ ""))

/-- The seen-set loop of `uniqPreserve`: keep elements not in `seen`, adding
each kept element to `seen`. -/
def uniqKeep : List String → List String → List String
  | [], _ => []
  | s :: rest, seen =>
    if seen.contains s then uniqKeep rest seen
    else s :: uniqKeep rest (s :: seen)

/-- `uniqPreserve` (instructions pipeline): trim, drop empties, keep the
first occurrence of each value in order. -/
def uniqPreserve (values : List String) : List String :=
  uniqKeep ((values.map (fun x => (⟨trimList x.toList⟩ : String))).filter
    (fun s => s ≠ "")) []

/-- `joinManyIndexed` (instructions pipeline): deduplicate, then join the
snippets `[i] v` with the record separator. -/
def joinManyIndexed (values : List String) : String :=
  let arr := uniqPreserve values
  if arr.length = 0 then ""
  else
    String.intercalate "\n\n---\n\n"
      (arr.enum.map (fun iv => "[" ++ toString (iv.1 + 1) ++ "] " ++ iv.2))

/-! ## Cue validation (`instructions.ts`) -/

/-- JS `\w` (regex word character): ASCII letter, digit or underscore. -/
def isWordChar (c : Char) : Bool :=
  ('a' ≤ c && c ≤ 'z') || ('A' ≤ c && c ≤ 'Z') || c.isDigit || c = '_'

/-- `sub` occurs in `l` starting at offset `i`. -/
def occursAt (l sub : List Char) (i : Nat) : Bool :=
  (l.drop i).take sub.length == sub

/-- A regex word boundary sits at offset `i` relative to word-char-ness of
the neighbouring characters (start/end of string count as boundaries). -/
def boundaryAt (l : List Char) (i : Nat) : Bool :=
  if i = 0 then true
  else if i = l.length then true
  else isWordChar (l.getD (i - 1) ' ') != isWordChar (l.getD i ' ')

/-- JS `/\bw\b/` on a char list: the pattern occurs with word boundaries on
both sides. (For the patterns used here the first and last pattern chars are
word characters, so the boundary test reduces to the neighbours not being
word characters.) -/
def matchesWordB (l : List Char) (w : String) : Bool :=
  (List.range (l.length + 1)).any (fun i =>
    occursAt l w.toList i &&
    (i = 0 || !isWordChar (l.getD (i - 1) ' ')) &&
    (i + w.toList.length ≥ l.length || !isWordChar (l.getD (i + w.toList.length) ' ')))

/-- JS `/\bw/` (leading boundary only), for the `diagnos` prefix test. -/
def matchesWordStart (l : List Char) (w : String) : Bool :=
  (List.range (l.length + 1)).any (fun i =>
    occursAt l w.toList i && (i = 0 || !isWordChar (l.getD (i - 1) ' ')))

/-- JS `/\b\d+\b/`: some maximal digit run delimited by word boundaries —
a digit run whose left and right neighbours (when present) are not word
characters. Digits embedded in alphanumeric words do not match. -/
def hasStandaloneDigits (l : List Char) : Bool :=
  (List.range l.length).any (fun i =>
    (l.getD i ' ').isDigit &&
    (i = 0 || !isWordChar (l.getD (i - 1) ' ')) &&
    (let j := i + ((l.drop i).takeWhile Char.isDigit).length
     j ≥ l.length || !isWordChar (l.getD j ' ')))

/-- The string contains a decimal digit character at all (the property the
spec claims of accepted cues). -/
def containsDigit (s : String) : Bool := s.toList.any Char.isDigit

/-- `sentenceCount`: the number of maximal runs of `.`/`!`/`?` (the
`/[.!?]+/g` match count), except that a non-empty trimmed string with no
run still counts as one sentence. -/
def isSentenceEnd (c : Char) : Bool := c = '.' || c = '!' || c = '?'

/-- Count maximal runs of sentence-end characters (`inRun` is whether the
previous character was one). -/
def punctRunsAux : List Char → Bool → Nat
  | [], _ => 0
  | c :: t, inRun =>
    if isSentenceEnd c then punctRunsAux t true + (if inRun then 0 else 1)
    else punctRunsAux t false

/-- Number of maximal runs of sentence-end characters. -/
def punctRuns (l : List Char) : Nat := punctRunsAux l false

/-- `sentenceCount` from `instructions.ts`. -/
def sentenceCount (s : String) : Nat :=
  let t := trimList s.toList
  if t = [] then 0
  else if punctRuns t = 0 then 1 else punctRuns t

/-- `hasDisallowedCuesContent`: first matching ban, over the lowercased cue. -/
def hasDisallowedCuesContent (s : String) : Option String :=
  let t := lowerOf s
  if matchesWordB t "because" then some "contains 'because'"
  else if matchesWordB t "so i think" then some "contains 'so I think'"
  else if matchesWordB t "it must" then some "contains 'it must'"
  else if matchesWordB t "i think" then some "contains 'I think'"
  else if hasStandaloneDigits t then some "contains a number/digit"
  else if matchesWordStart t "diagnos" then some "mentions diagnosis"
  else if matchesWordB t "red flag" then some "mentions red flag"
  else none

/-- `/^if\b/i` on the trimmed cue: starts with `if` (case-insensitive)
followed by a word boundary. -/
def startsWithIfWord (c : List Char) : Bool :=
  occursAt (c.map Char.toLower) ['i', 'f'] 0 && !isWordChar (c.getD 2 ' ')

/-- `validateCueSentenceFormat`: the per-cue predicate, with the source's
reasons and test order. -/
def validateCueSentenceFormat (s : String) : Option String :=
  let c := trimList s.toList
  if c = [] then some "empty cue"
  else if ¬ startsWithIfWord c then some "cue does not start with 'If'"
  else if ¬ matchesWordB (c.map Char.toLower) "then" then some "cue missing 'then'"
  else if sentenceCount (⟨c⟩ : String) ≠ 1 then some "cue is not exactly one sentence"
  else
    match hasDisallowedCuesContent (⟨c⟩ : String) with
    | some bad => some bad
    | none => if c.length > 260 then some "cue too long" else none

/-- First failure among a list of cues. -/
def firstCueErr : List String → Option String
  | [] => none
  | c :: rest =>
    match validateCueSentenceFormat c with
    | some r => some r
    | none => firstCueErr rest

/-- `validateCues`: trim, drop empties; fail on more than two cues, else on
the first per-cue failure. `none` is acceptance. -/
def validateCues (cues : List String) : Option String :=
  let arr := (cues.map (fun x => (⟨trimList x.toList⟩ : String))).filter
    (fun s => s ≠ "")
  if arr.length > 2 then some "more than 2 cues"
  else firstCueErr arr

/-! ## Batch-driver loop guard (`handler` in `process.ts`) -/

/-- A JS number as the driver reads `Number(req.query.limit ?? 2)`: either a
real number (here: an integer, the only values the comparison meets) or
`NaN` (e.g. `limit=abc`). -/
inductive JSNum where
  | nan
  | int (n : Int)
deriving DecidableEq, Repr

/-- JS `>=` against the limit: always false when the limit is `NaN`. -/
def jsGeLimit (count : Nat) (limit : JSNum) : Bool :=
  match limit with
  | .nan => false
  | .int m => (count : Int) ≥ m

/-- The driver loop of the handler: iterate `caseId` from `startFrom` to
`maxCase`, stopping when `processed.length >= limit`; every iteration
appends exactly one record (each branch of the per-case body pushes one
entry), so the processed count is the number of attempted ids; returns the
attempted case ids in order. This is the guard recursion, from `caseId` with
`count` records already accumulated. -/
def driverGo (maxCase : Nat) (limit : JSNum) (caseId count : Nat) : List Nat :=
  if caseId > maxCase then []
  else if jsGeLimit count limit then []
  else caseId :: driverGo maxCase limit (caseId + 1) (count + 1)
termination_by maxCase + 1 - caseId
decreasing_by omega

/-- The whole loop, from `startFrom` with an empty `processed` list. -/
def runDriver (startFrom maxCase : Nat) (limit : JSNum) : List Nat :=
  driverGo maxCase limit startFrom 0

/-! ## Concrete inputs used by witnesses and counterexamples -/

/-- Number of offsets at which `sub` occurs in `l` (occurrence count). -/
def countSubAt (l sub : List Char) : Nat :=
  ((List.range (l.length + 1)).filter (fun i => occursAt l sub i)).length

/-- An image generator oracle that always returns the same payload. -/
def genConst : Nat → String := fun _ => "img"

/-- Verification oracles that answer no to everything. -/
def oraclesNo : VerifyOracles :=
  ⟨fun _ => false, fun _ => false, fun _ => false, fun _ => false⟩

/-- An operation that always fails with a non-retryable 400. -/
def fNonRetry : Nat → Except RemoteErr Nat :=
  fun _ => .error ⟨some 400, "bad request"⟩

/-- A cue the validator accepts although it contains the digit `2` (embedded
in an alphanumeric word, so `/\b\d+\b/` does not see it). -/
def cueWithDigit : String :=
  "If asked about hobbies, then mention chess2 casually."

/-- A compliant cue list. -/
def goodCues : List String :=
  ["If work is not mentioned, then say the days feel long."]

/-- A record whose single field value is `Alice` (C8 counterexample). -/
def recAlice : List (String × String) := [("Name", "Alice")]

/-! ## Theorems -/

/-! ### Palette selection helpers (C1, C6) -/

/-- `pick` returns a palette entry whenever the palette is non-empty. -/
theorem pick_mem (arr : List String) (seed : Nat) (h : arr ≠ []) :
    pick arr seed ∈ arr := by
  have hlen : 0 < arr.length := List.length_pos.mpr h
  have hlt : seed % arr.length < arr.length := Nat.mod_lt _ hlen
  unfold pick
  rw [List.getD_eq_getElem?_getD, List.getElem?_eq_getElem hlt]
  exact List.getElem_mem hlt

/-- The resolved background is a `BACKGROUNDS` entry. -/
theorem resolveVariety_background_mem (seed : Nat) :
    (resolveVariety seed).1 ∈ BACKGROUNDS :=
  pick_mem BACKGROUNDS seed (by decide)

/-- The clash rule either keeps the picked color or substitutes `"navy"`. -/
theorem clash_cases (c b : String) :
    ensureNoBackgroundClothingClash c b = c ∨
    ensureNoBackgroundClothingClash c b = "navy" := by
  unfold ensureNoBackgroundClothingClash
  simp only []
  split
  · exact Or.inr rfl
  · exact Or.inl rfl

/-- The resolved clothing color is a `CLOTHING_COLORS` entry (the clash rule
can only substitute `"navy"`, itself a palette entry). -/
theorem resolveVariety_clothing_mem (seed : Nat) :
    (resolveVariety seed).2 ∈ CLOTHING_COLORS := by
  show ensureNoBackgroundClothingClash _ _ ∈ CLOTHING_COLORS
  rcases clash_cases (pick CLOTHING_COLORS (seed + 17)) (pick BACKGROUNDS seed)
    with h | h <;> rw [h]
  · exact pick_mem CLOTHING_COLORS (seed + 17) (by decide)
  · decide

/-- No background palette entry is the sentinel. -/
theorem backgrounds_ne_auto : ∀ s ∈ BACKGROUNDS, s ≠ "auto" := by decide

/-- No clothing palette entry is the sentinel. -/
theorem clothing_ne_auto : ∀ s ∈ CLOTHING_COLORS, s ≠ "auto" := by decide

/-- C1: after the handler's deterministic overwrite step (which runs once,
between validation and prompt composition), `background` and
`clothing_color` are palette entries — never the `"auto"` sentinel — and
their values do not depend on anything the model put in the profile; no
other field is touched by the step. -/
theorem C1_system_owned_overwrite (p q : VisualProfile) (caseId : Nat)
    (caseText : String) :
    (applyVarietySelection p caseId caseText).background ≠ "auto" ∧
    (applyVarietySelection p caseId caseText).clothing_color ≠ "auto" ∧
    (applyVarietySelection p caseId caseText).background ∈ BACKGROUNDS ∧
    (applyVarietySelection p caseId caseText).clothing_color ∈ CLOTHING_COLORS ∧
    (applyVarietySelection p caseId caseText).background =
      (applyVarietySelection q caseId caseText).background ∧
    (applyVarietySelection p caseId caseText).clothing_color =
      (applyVarietySelection q caseId caseText).clothing_color ∧
    applyVarietySelection p caseId caseText =
      { p with
          background := (resolveVariety (seedFromText caseId caseText)).1,
          clothing_color := (resolveVariety (seedFromText caseId caseText)).2 } := by
  refine ⟨?_, ?_, ?_, ?_, rfl, rfl, rfl⟩
  · exact backgrounds_ne_auto _ (resolveVariety_background_mem _)
  · exact clothing_ne_auto _ (resolveVariety_clothing_mem _)
  · exact resolveVariety_background_mem _
  · exact resolveVariety_clothing_mem _

/-- C6: the variety selection is a pure function of `(caseId, caseText)` —
repeated invocations with the same identifier and text give the same
background and clothing color — where the seed is the first four bytes of
`sha256("caseId::caseText")`, the background is `BACKGROUNDS[seed % 4]`,
and the clothing pick is `CLOTHING_COLORS[(seed + 17) % 14]` before the
clash substitution. -/
theorem C6_deterministic_variety (caseId caseId' : Nat)
    (caseText caseText' : String)
    (hid : caseId = caseId') (htxt : caseText = caseText') :
    resolveVariety (seedFromText caseId caseText) =
      resolveVariety (seedFromText caseId' caseText') ∧
    seedFromText caseId caseText =
      (sha256Bytes (strUtf8 (toString caseId ++ "::" ++ caseText))).getD 0 0
          * 16777216 +
        (sha256Bytes (strUtf8 (toString caseId ++ "::" ++ caseText))).getD 1 0
          * 65536 +
        (sha256Bytes (strUtf8 (toString caseId ++ "::" ++ caseText))).getD 2 0
          * 256 +
        (sha256Bytes (strUtf8 (toString caseId ++ "::" ++ caseText))).getD 3 0 ∧
    (resolveVariety (seedFromText caseId caseText)).1 =
      BACKGROUNDS.getD (seedFromText caseId caseText % BACKGROUNDS.length) "" ∧
    (resolveVariety (seedFromText caseId caseText)).2 =
      ensureNoBackgroundClothingClash
        (CLOTHING_COLORS.getD
          ((seedFromText caseId caseText + 17) % CLOTHING_COLORS.length) "")
        (BACKGROUNDS.getD (seedFromText caseId caseText % BACKGROUNDS.length) "") := by
  subst hid htxt
  exact ⟨rfl, rfl, rfl, rfl⟩

/-- C6 witness: the selection at a concrete identifier and text, compared
against a second run on the same input. -/
theorem C6_deterministic_variety_witness :
    resolveVariety (seedFromText 1 "Name: Alice") =
      resolveVariety (seedFromText 1 "Name: Alice") ∧
    seedFromText 1 "Name: Alice" =
      (sha256Bytes (strUtf8 (toString 1 ++ "::" ++ "Name: Alice"))).getD 0 0
          * 16777216 +
        (sha256Bytes (strUtf8 (toString 1 ++ "::" ++ "Name: Alice"))).getD 1 0
          * 65536 +
        (sha256Bytes (strUtf8 (toString 1 ++ "::" ++ "Name: Alice"))).getD 2 0
          * 256 +
        (sha256Bytes (strUtf8 (toString 1 ++ "::" ++ "Name: Alice"))).getD 3 0 ∧
    (resolveVariety (seedFromText 1 "Name: Alice")).1 =
      BACKGROUNDS.getD (seedFromText 1 "Name: Alice" % BACKGROUNDS.length) "" ∧
    (resolveVariety (seedFromText 1 "Name: Alice")).2 =
      ensureNoBackgroundClothingClash
        (CLOTHING_COLORS.getD
          ((seedFromText 1 "Name: Alice" + 17) % CLOTHING_COLORS.length) "")
        (BACKGROUNDS.getD (seedFromText 1 "Name: Alice" % BACKGROUNDS.length) "") :=
  C6_deterministic_variety 1 1 "Name: Alice" "Name: Alice" rfl rfl


/-- C4: in the profile extractor, an unmappable `gender_presentation` or
`build` (no substring match after lowercasing) fails validation with the
corresponding bad-enum error, while `socioeconomic`, `glam_level`,
`retouching`, `skin_tone` and `hair_texture` never cause failure and resolve
to the defaults `"unknown"`, `"medium"`, `"none"`, `"unspecified"`,
`"unspecified"` when unmappable. -/
theorem C4_hard_gate_vs_soft_defaults (p : RawProfile) :
    (normalizeGender p.gender_presentation = none →
        validateProfile p = .error (.badGender p.gender_presentation)) ∧
    (normalizeGender p.gender_presentation ≠ none →
        normalizeBuild p.build = none →
        validateProfile p = .error (.badBuild p.build)) ∧
    (normalizeGender p.gender_presentation ≠ none →
        normalizeBuild p.build ≠ none →
        ∃ q, validateProfile p = .ok q) ∧
    (∀ q, validateProfile p = .ok q →
        q.socioeconomic = normalizeSocio p.socioeconomic ∧
        q.glam_level = normalizeGlam p.glam_level ∧
        q.retouching = normalizeRetouching p.retouching ∧
        q.skin_tone = normalizeSkinTone p.skin_tone ∧
        q.hair_texture = normalizeHairTexture p.hair_texture) ∧
    (socioMappable p.socioeconomic = false →
        normalizeSocio p.socioeconomic = "unknown") ∧
    (glamMappable p.glam_level = false →
        normalizeGlam p.glam_level = "medium") ∧
    (retouchingMappable p.retouching = false →
        normalizeRetouching p.retouching = "none") ∧
    (skinToneMappable p.skin_tone = false →
        normalizeSkinTone p.skin_tone = "unspecified") ∧
    (hairTextureMappable p.hair_texture = false →
        normalizeHairTexture p.hair_texture = "unspecified") := by
  refine ⟨?_, ?_, ?_, ?_, ?_, ?_, ?_, ?_, ?_⟩
  · intro h
    simp [validateProfile, h]
  · intro h1 h2
    rcases hg : normalizeGender p.gender_presentation with _ | g
    · exact absurd hg h1
    simp [validateProfile, hg, h2]
  · intro h1 h2
    rcases hg : normalizeGender p.gender_presentation with _ | g
    · exact absurd hg h1
    rcases hb : normalizeBuild p.build with _ | b
    · exact absurd hb h2
    exact ⟨_, by simp only [validateProfile]; rw [hg, hb]⟩
  · intro q hq
    simp only [validateProfile] at hq
    rcases hg : normalizeGender p.gender_presentation with _ | g
    · rw [hg] at hq; simp at hq
    rw [hg] at hq
    rcases hb : normalizeBuild p.build with _ | b
    · rw [hb] at hq; simp at hq
    rw [hb] at hq
    simp only [Except.ok.injEq] at hq
    subst hq
    exact ⟨rfl, rfl, rfl, rfl, rfl⟩
  · intro h
    simp only [socioMappable, Bool.or_eq_false_iff] at h
    obtain ⟨⟨⟨h1, h2⟩, h3⟩, h4⟩ := h
    simp [normalizeSocio, h1, h2, h3, h4]
  · intro h
    simp only [glamMappable, Bool.or_eq_false_iff] at h
    obtain ⟨h1, h2⟩ := h
    simp [normalizeGlam, h1, h2]
  · intro h
    simp only [retouchingMappable] at h
    simp [normalizeRetouching, h]
  · intro h
    simp only [skinToneMappable, Bool.or_eq_false_iff] at h
    obtain ⟨⟨⟨⟨h1, h2⟩, h3⟩, h4⟩, h5⟩ := h
    simp [normalizeSkinTone, h1, h2, h3, h4, h5]
  · intro h
    simp only [hairTextureMappable, Bool.or_eq_false_iff] at h
    obtain ⟨⟨⟨h1, h2⟩, h3⟩, h4⟩ := h
    simp [normalizeHairTexture, h1, h2, h3, h4]

/-- C4 witness: a concrete parsed profile whose gender value maps to no
closed-enum entry fails validation with the bad-gender error. -/
theorem C4_hard_gate_vs_soft_defaults_witness :
    validateProfile rawUnmappableGender = .error (.badGender "nonbinary") :=
  (C4_hard_gate_vs_soft_defaults rawUnmappableGender).1 (by decide)

/-- C2 counterexample: in `scanPair` mode, a profile with parsed age 4 and a
model decision of `"single"` (hence a `null` model companion) yields a row
whose composition is forced to `"pair"` but whose companion is `null` — the
claim's "companion is non-null … including the scanPair mode" fails. -/
theorem C2_pair_override_counterexample :
    (scanPairRow profileAge4.age compSingle).1 = "pair" ∧
    (scanPairRow profileAge4.age compSingle).2 = none := by
  constructor <;> rfl

/-- C2 (amended): when the profile's parsed numeric age is below 6, the
composition resolved on the main handler path is `"pair"` with a non-null
companion (synthesized if the model omitted one), and on the `scanPair` path
the composition is likewise forced to `"pair"` — but there the reported
companion is the model's own companion field, which may be `null`. -/
theorem C2_child_pair_override (p : VisualProfile) (comp : CompositionDecision)
    (n : Nat) (hage : parseAgeNumber p.age = some n) (hn : n < 6) :
    (applyCompositionDecision p comp).composition = some "pair" ∧
    (applyCompositionDecision p comp).companion ≠ none ∧
    (scanPairRow p.age comp).1 = "pair" ∧
    (scanPairRow p.age comp).2 = comp.companion := by
  have hA : (applyCompositionDecision p comp).composition = some "pair" := by
    unfold applyCompositionDecision forceChildPairIfNeeded
    simp [hage, hn]
  have hB : (applyCompositionDecision p comp).companion ≠ none := by
    unfold applyCompositionDecision forceChildPairIfNeeded
    simp only [hage, hn, if_true]
    cases comp.companion <;> simp
  have hC : (scanPairRow p.age comp).1 = "pair" := by
    unfold scanPairRow
    simp [hage, hn]
  have hD : (scanPairRow p.age comp).2 = comp.companion := by
    unfold scanPairRow
    simp [hage, hn]
  exact ⟨hA, hB, hC, hD⟩

/-- C2 witness: the override at the concrete profile with age `"4"` and a
model `"single"` decision. -/
theorem C2_child_pair_override_witness :
    (applyCompositionDecision profileAge4 compSingle).composition = some "pair" ∧
    (applyCompositionDecision profileAge4 compSingle).companion ≠ none ∧
    (scanPairRow profileAge4.age compSingle).1 = "pair" ∧
    (scanPairRow profileAge4.age compSingle).2 = compSingle.companion :=
  C2_child_pair_override profileAge4 compSingle 4 (by decide) (by decide)

/-- C9: `parseAgeNumber` yields `null` exactly when the age string contains no
decimal digit, and in that case `forceChildPairIfNeeded` leaves the profile
(composition and companion included) unchanged — the child-pair rule does not
fire for word-spelled or absent ages. -/
theorem C9_no_digit_no_override (s : String) (p : VisualProfile) :
    (parseAgeNumber s = none ↔ ∀ c ∈ s.toList, c.isDigit = false) ∧
    (parseAgeNumber p.age = none → forceChildPairIfNeeded p = p) := by
  constructor
  · show parseAgeList s.toList = none ↔ _
    induction s.toList with
    | nil => simp [parseAgeList]
    | cons c t ih => cases hc : c.isDigit <;> simp [parseAgeList, hc, ih]
  · intro h
    unfold forceChildPairIfNeeded
    rw [h]

/-- C9 witness: the age `"five"` parses to `null` and the override leaves the
concrete profile unchanged. -/
theorem C9_no_digit_no_override_witness :
    parseAgeNumber "five" = none ∧
    forceChildPairIfNeeded profileAgeFive = profileAgeFive :=
  ⟨(C9_no_digit_no_override "five" profileAgeFive).1.mpr (by decide),
   (C9_no_digit_no_override "five" profileAgeFive).2 (by decide)⟩

/-! ### Verified-generation loop (C3) -/

/-- C3: the verified-generation loop makes between one and three attempts;
when the generated payloads are non-empty its result payload is non-empty
even if every check fails; it returns the first attempt whose applicable
checks all pass together, with that attempt's payload and flags; and when no
attempt passes it returns the third attempt's payload and flags. -/
theorem C3_verified_loop (gen : Nat → String) (o : VerifyOracles) (req : Bool)
    (hne : gen 1 ≠ "" ∧ gen 2 ≠ "" ∧ gen 3 ≠ "") :
    (1 ≤ (generateVerifiedHeadshot gen o req).attempts ∧
      (generateVerifiedHeadshot gen o req).attempts ≤ 3) ∧
    (generateVerifiedHeadshot gen o req).b64 ≠ "" ∧
    (∀ k, 1 ≤ k → k ≤ 3 →
      allOk (attemptOutcome gen o req k) = true →
      (∀ j, 1 ≤ j → j < k → allOk (attemptOutcome gen o req j) = false) →
      generateVerifiedHeadshot gen o req = attemptOutcome gen o req k) ∧
    ((∀ k, 1 ≤ k → k ≤ 3 → allOk (attemptOutcome gen o req k) = false) →
      generateVerifiedHeadshot gen o req = attemptOutcome gen o req 3) := by
  obtain ⟨h1, h2, h3⟩ := hne
  have hb : ∀ k, (attemptOutcome gen o req k).b64 = gen k := fun _ => rfl
  have ha : ∀ k, (attemptOutcome gen o req k).attempts = k := fun _ => rfl
  have htri : generateVerifiedHeadshot gen o req = attemptOutcome gen o req 1 ∨
      generateVerifiedHeadshot gen o req = attemptOutcome gen o req 2 ∨
      generateVerifiedHeadshot gen o req = attemptOutcome gen o req 3 := by
    unfold generateVerifiedHeadshot
    cases e1 : allOk (attemptOutcome gen o req 1) <;>
      cases e2 : allOk (attemptOutcome gen o req 2) <;> simp [e1, e2]
  refine ⟨?_, ?_, ?_, ?_⟩
  · rcases htri with h | h | h <;> rw [h] <;> exact ⟨by simp [ha], by simp [ha]⟩
  · rcases htri with h | h | h <;> rw [h, hb]
    · exact h1
    · exact h2
    · exact h3
  · intro k hk1 hk3 hOk hPrev
    interval_cases k
    · simp [generateVerifiedHeadshot, hOk]
    · have p1 := hPrev 1 (by omega) (by omega)
      simp [generateVerifiedHeadshot, p1, hOk]
    · have p1 := hPrev 1 (by omega) (by omega)
      have p2 := hPrev 2 (by omega) (by omega)
      simp [generateVerifiedHeadshot, p1, p2]
  · intro hall
    have p1 := hall 1 (by omega) (by omega)
    have p2 := hall 2 (by omega) (by omega)
    simp [generateVerifiedHeadshot, p1, p2]

/-- C3 witness: the loop at a constant generator with all-no oracles makes
three attempts and still returns the payload. -/
theorem C3_verified_loop_witness :
    (1 ≤ (generateVerifiedHeadshot genConst oraclesNo false).attempts ∧
      (generateVerifiedHeadshot genConst oraclesNo false).attempts ≤ 3) ∧
    (generateVerifiedHeadshot genConst oraclesNo false).b64 ≠ "" ∧
    (∀ k, 1 ≤ k → k ≤ 3 →
      allOk (attemptOutcome genConst oraclesNo false k) = true →
      (∀ j, 1 ≤ j → j < k →
        allOk (attemptOutcome genConst oraclesNo false j) = false) →
      generateVerifiedHeadshot genConst oraclesNo false =
        attemptOutcome genConst oraclesNo false k) ∧
    ((∀ k, 1 ≤ k → k ≤ 3 →
        allOk (attemptOutcome genConst oraclesNo false k) = false) →
      generateVerifiedHeadshot genConst oraclesNo false =
        attemptOutcome genConst oraclesNo false 3) :=
  C3_verified_loop genConst oraclesNo false ⟨by decide, by decide, by decide⟩

/-! ### Retry wrapper (C7) -/

/-- Step equation: a successful attempt returns immediately. -/
theorem withRetryFrom_ok {α : Type} (f : Nat → Except RemoteErr α)
    (tries i : Nat) (hlt : i < tries) (a : α) (hf : f i = .ok a) :
    withRetryFrom f tries i = ⟨.ok a, 1, []⟩ := by
  rw [withRetryFrom, dif_pos hlt]
  split
  · rename_i a' heq
    rw [hf] at heq
    cases heq
    rfl
  · rename_i e heq
    rw [hf] at heq
    simp at heq

/-- Step equation: a failure that is non-retryable, or on the last budgeted
attempt, is thrown at once. -/
theorem withRetryFrom_break {α : Type} (f : Nat → Except RemoteErr α)
    (tries i : Nat) (hlt : i < tries) (e : RemoteErr) (hf : f i = .error e)
    (hbr : ¬ isRetryableStatus e.status = true ∨ i = tries - 1) :
    withRetryFrom f tries i = ⟨.error (some e), 1, []⟩ := by
  rw [withRetryFrom, dif_pos hlt]
  split
  · rename_i a heq
    rw [hf] at heq
    simp at heq
  · rename_i e' heq
    rw [hf] at heq
    cases heq
    rw [if_pos hbr]

/-- Step equation: a retryable failure with budget left sleeps and retries. -/
theorem withRetryFrom_retry {α : Type} (f : Nat → Except RemoteErr α)
    (tries i : Nat) (hlt : i < tries) (e : RemoteErr) (hf : f i = .error e)
    (hbr : ¬ (¬ isRetryableStatus e.status = true ∨ i = tries - 1)) :
    withRetryFrom f tries i =
      ⟨(withRetryFrom f tries (i + 1)).result,
       (withRetryFrom f tries (i + 1)).calls + 1,
       800 * (i + 1) :: (withRetryFrom f tries (i + 1)).sleeps⟩ := by
  rw [withRetryFrom, dif_pos hlt]
  split
  · rename_i a heq
    rw [hf] at heq
    simp at heq
  · rename_i e' heq
    rw [hf] at heq
    cases heq
    rw [if_neg hbr]

/-- Invariant of the retry loop started at attempt `i` inside the budget:
at least one call is made and at most `tries - i`; the sleeps are the linear
backoff of the retried attempts in order; attempts are retried only after a
retryable failure; whatever is thrown or returned is the last attempt's own
outcome; and the `undefined` error of an empty budget cannot appear. -/
theorem withRetryFrom_spec {α : Type} (f : Nat → Except RemoteErr α) :
    ∀ n tries i, tries - i = n → i < tries →
    1 ≤ (withRetryFrom f tries i).calls ∧
    i + (withRetryFrom f tries i).calls ≤ tries ∧
    (withRetryFrom f tries i).sleeps =
      (List.range ((withRetryFrom f tries i).calls - 1)).map
        (fun j => 800 * (i + j + 1)) ∧
    (∀ j, j + 1 < (withRetryFrom f tries i).calls →
      ∃ e, f (i + j) = .error e ∧ isRetryableStatus e.status = true) ∧
    (∀ e, (withRetryFrom f tries i).result = .error (some e) →
      f (i + (withRetryFrom f tries i).calls - 1) = .error e) ∧
    (∀ a, (withRetryFrom f tries i).result = .ok a →
      f (i + (withRetryFrom f tries i).calls - 1) = .ok a) ∧
    (withRetryFrom f tries i).result ≠ .error none := by
  intro n
  induction n with
  | zero => intro tries i hn hlt; omega
  | succ n ih =>
    intro tries i hn hlt
    cases hf : f i with
    | ok a =>
      rw [withRetryFrom_ok f tries i hlt a hf]
      refine ⟨by norm_num, ?_, by simp, ?_, ?_, ?_, by simp⟩
      · show i + 1 ≤ tries
        omega
      · intro j hj
        simp at hj
      · intro e he
        simp at he
      · intro a' ha'
        simp only [Except.ok.injEq] at ha'
        subst ha'
        simpa using hf
    | error e =>
      by_cases hbr : ¬ isRetryableStatus e.status = true ∨ i = tries - 1
      · rw [withRetryFrom_break f tries i hlt e hf hbr]
        refine ⟨by norm_num, ?_, by simp, ?_, ?_, ?_, by simp⟩
        · show i + 1 ≤ tries
          omega
        · intro j hj
          simp at hj
        · intro e' he'
          simp only [Except.error.injEq, Option.some.injEq] at he'
          subst he'
          simpa using hf
        · intro a ha
          simp at ha
      · have hbr' := hbr
        push_neg at hbr'
        obtain ⟨hret, hne⟩ := hbr'
        have hlt2 : i + 1 < tries := by omega
        obtain ⟨ih1, ih2, ih3, ih4, ih5, ih6, ih7⟩ :=
          ih tries (i + 1) (by omega) hlt2
        rw [withRetryFrom_retry f tries i hlt e hf hbr]
        refine ⟨by simp, ?_, ?_, ?_, ?_, ?_, by simpa using ih7⟩
        · show i + ((withRetryFrom f tries (i + 1)).calls + 1) ≤ tries
          omega
        · show 800 * (i + 1) :: (withRetryFrom f tries (i + 1)).sleeps =
            (List.range ((withRetryFrom f tries (i + 1)).calls + 1 - 1)).map
              (fun j => 800 * (i + j + 1))
          rw [Nat.add_sub_cancel, ih3]
          have hm : (withRetryFrom f tries (i + 1)).calls =
              ((withRetryFrom f tries (i + 1)).calls - 1) + 1 := by omega
          nth_rewrite 2 [hm]
          rw [List.range_succ_eq_map, List.map_cons, List.map_map]
          congr 1
          apply List.map_congr_left
          intro j _
          simp only [Function.comp_apply]
          omega
        · intro j hj
          match j with
          | 0 => exact ⟨e, by simpa using hf, hret⟩
          | j' + 1 =>
            obtain ⟨e', he', hr⟩ := ih4 j' (by simp at hj; omega)
            refine ⟨e', ?_, hr⟩
            have hidx : i + (j' + 1) = i + 1 + j' := by omega
            rw [hidx]
            exact he'
        · intro e' he'
          have h5 := ih5 e' (by simpa using he')
          show f (i + ((withRetryFrom f tries (i + 1)).calls + 1) - 1) = _
          have hidx : i + ((withRetryFrom f tries (i + 1)).calls + 1) - 1 =
              i + 1 + (withRetryFrom f tries (i + 1)).calls - 1 := by omega
          rw [hidx]
          exact h5
        · intro a ha
          have h6 := ih6 a (by simpa using ha)
          show f (i + ((withRetryFrom f tries (i + 1)).calls + 1) - 1) = _
          have hidx : i + ((withRetryFrom f tries (i + 1)).calls + 1) - 1 =
              i + 1 + (withRetryFrom f tries (i + 1)).calls - 1 := by omega
          rw [hidx]
          exact h6

/-- C7: with a positive attempt budget (3 by default), the wrapper calls the
operation between one and `tries` times; the waits are `800 * (attempt
index + 1)` for exactly the retried attempts; an attempt is followed by
another only when it failed with status 429 or ≥ 500 (`isRetryableStatus`);
and the final outcome — thrown error or returned value — is exactly the
last attempt's own outcome, unchanged. -/
theorem C7_retry_wrapper {α : Type} (f : Nat → Except RemoteErr α) (tries : Nat)
    (htries : 1 ≤ tries) :
    (1 ≤ (withRetry f tries).calls ∧ (withRetry f tries).calls ≤ tries) ∧
    (withRetry f tries).sleeps =
      (List.range ((withRetry f tries).calls - 1)).map (fun j => 800 * (j + 1)) ∧
    (∀ j, j + 1 < (withRetry f tries).calls →
      ∃ e, f j = .error e ∧ isRetryableStatus e.status = true) ∧
    (∀ e, (withRetry f tries).result = .error (some e) →
      f ((withRetry f tries).calls - 1) = .error e) ∧
    (∀ a, (withRetry f tries).result = .ok a →
      f ((withRetry f tries).calls - 1) = .ok a) ∧
    (withRetry f tries).result ≠ .error none ∧
    (∀ s : Nat, isRetryableStatus (some s) = (s == 429 || decide (s ≥ 500))) := by
  unfold withRetry
  obtain ⟨h1, h2, h3, h4, h5, h6, h7⟩ :=
    withRetryFrom_spec f tries tries 0 rfl (by omega)
  refine ⟨⟨h1, by omega⟩, ?_, ?_, ?_, ?_, h7, fun s => rfl⟩
  · rw [h3]
    apply List.map_congr_left
    intro j _
    norm_num
  · intro j hj
    simpa using h4 j hj
  · intro e he
    simpa using h5 e he
  · intro a ha
    simpa using h6 a ha

/-- C7 witness: a non-retryable 400 failure is called once and rethrown
unchanged, with no backoff sleeps. -/
theorem C7_retry_wrapper_witness :
    (1 ≤ (withRetry fNonRetry 3).calls ∧ (withRetry fNonRetry 3).calls ≤ 3) ∧
    (withRetry fNonRetry 3).sleeps =
      (List.range ((withRetry fNonRetry 3).calls - 1)).map
        (fun j => 800 * (j + 1)) ∧
    (∀ j, j + 1 < (withRetry fNonRetry 3).calls →
      ∃ e, fNonRetry j = .error e ∧ isRetryableStatus e.status = true) ∧
    (∀ e, (withRetry fNonRetry 3).result = .error (some e) →
      fNonRetry ((withRetry fNonRetry 3).calls - 1) = .error e) ∧
    (∀ a, (withRetry fNonRetry 3).result = .ok a →
      fNonRetry ((withRetry fNonRetry 3).calls - 1) = .ok a) ∧
    (withRetry fNonRetry 3).result ≠ .error none ∧
    (∀ s : Nat, isRetryableStatus (some s) = (s == 429 || decide (s ≥ 500))) :=
  C7_retry_wrapper fNonRetry 3 (by norm_num)

/-! ### Cue validation (C5) -/

/-- The ban list passes exactly when every individual ban test fails. -/
theorem hasDisallowed_none_iff (s : String) :
    hasDisallowedCuesContent s = none ↔
      matchesWordB (lowerOf s) "because" = false ∧
      matchesWordB (lowerOf s) "so i think" = false ∧
      matchesWordB (lowerOf s) "it must" = false ∧
      matchesWordB (lowerOf s) "i think" = false ∧
      hasStandaloneDigits (lowerOf s) = false ∧
      matchesWordStart (lowerOf s) "diagnos" = false ∧
      matchesWordB (lowerOf s) "red flag" = false := by
  unfold hasDisallowedCuesContent
  simp only []
  split_ifs with h1 h2 h3 h4 h5 h6 h7 <;> simp_all

/-- What acceptance by the per-cue predicate guarantees about the
(re-trimmed) cue. -/
theorem validateCueFormat_none (s : String)
    (h : validateCueSentenceFormat s = none) :
    trimList s.toList ≠ [] ∧
    startsWithIfWord (trimList s.toList) = true ∧
    matchesWordB ((trimList s.toList).map Char.toLower) "then" = true ∧
    sentenceCount (⟨trimList s.toList⟩ : String) = 1 ∧
    hasDisallowedCuesContent (⟨trimList s.toList⟩ : String) = none ∧
    (trimList s.toList).length ≤ 260 := by
  simp only [validateCueSentenceFormat] at h
  by_cases h1 : trimList s.toList = []
  · rw [if_pos h1] at h; simp at h
  rw [if_neg h1] at h
  by_cases h2 : ¬ startsWithIfWord (trimList s.toList) = true
  · rw [if_pos h2] at h; simp at h
  rw [if_neg h2] at h
  by_cases h3 : ¬ matchesWordB ((trimList s.toList).map Char.toLower) "then" = true
  · rw [if_pos h3] at h; simp at h
  rw [if_neg h3] at h
  by_cases h4 : sentenceCount (⟨trimList s.toList⟩ : String) ≠ 1
  · rw [if_pos h4] at h; simp at h
  rw [if_neg h4] at h
  rcases hd : hasDisallowedCuesContent (⟨trimList s.toList⟩ : String) with _ | bad
  · simp only [hd] at h
    by_cases h5 : (trimList s.toList).length > 260
    · rw [if_pos h5] at h; simp at h
    exact ⟨h1, by simpa using h2, by simpa using h3, by simpa using h4, rfl,
      by omega⟩
  · simp only [hd] at h
    simp at h

/-- If the cue list scan reports no failure, every cue passes. -/
theorem firstCueErr_none : ∀ {l : List String}, firstCueErr l = none →
    ∀ c ∈ l, validateCueSentenceFormat c = none := by
  intro l
  induction l with
  | nil => intro _ c hc; simp at hc
  | cons c t ih =>
    intro h x hx
    unfold firstCueErr at h
    rcases hv : validateCueSentenceFormat c with _ | r
    · simp only [hv] at h
      rcases List.mem_cons.mp hx with rfl | hx'
      · exact hv
      · exact ih h x hx'
    · simp only [hv] at h
      exact absurd h (by simp)

/-- C5 counterexample: `validateCues` accepts a cue that contains the digit
`2` — the digit sits inside the alphanumeric word `chess2`, which the
`\b\d+\b` test does not match — so "contains no digit characters" fails as
stated. -/
theorem C5_cue_validation_counterexample :
    validateCues [cueWithDigit] = none ∧ containsDigit cueWithDigit = true := by
  constructor
  · decide
  · decide

/-- C5 (amended): every accepted cue list has at most 2 (trimmed, non-empty)
cues, and each cue begins with the word `If`, contains the word `then`, is
exactly one sentence, contains no *standalone* digit token (a digit run
delimited by word boundaries — digits embedded inside alphanumeric words
are not rejected), contains none of the banned reasoning/diagnostic
phrases, and is at most 260 characters long. -/
theorem C5_cue_validation (cues : List String)
    (h : validateCues cues = none) :
    ((cues.map (fun x => (⟨trimList x.toList⟩ : String))).filter
        (fun s => s ≠ "")).length ≤ 2 ∧
    ∀ c ∈ (cues.map (fun x => (⟨trimList x.toList⟩ : String))).filter
        (fun s => s ≠ ""),
      trimList c.toList ≠ [] ∧
      startsWithIfWord (trimList c.toList) = true ∧
      matchesWordB ((trimList c.toList).map Char.toLower) "then" = true ∧
      sentenceCount (⟨trimList c.toList⟩ : String) = 1 ∧
      matchesWordB (lowerOf (⟨trimList c.toList⟩ : String)) "because" = false ∧
      matchesWordB (lowerOf (⟨trimList c.toList⟩ : String)) "so i think" = false ∧
      matchesWordB (lowerOf (⟨trimList c.toList⟩ : String)) "it must" = false ∧
      matchesWordB (lowerOf (⟨trimList c.toList⟩ : String)) "i think" = false ∧
      hasStandaloneDigits (lowerOf (⟨trimList c.toList⟩ : String)) = false ∧
      matchesWordStart (lowerOf (⟨trimList c.toList⟩ : String)) "diagnos" = false ∧
      matchesWordB (lowerOf (⟨trimList c.toList⟩ : String)) "red flag" = false ∧
      (trimList c.toList).length ≤ 260 := by
  simp only [validateCues] at h
  by_cases hlen : ((cues.map (fun x => (⟨trimList x.toList⟩ : String))).filter
      (fun s => s ≠ "")).length > 2
  · rw [if_pos hlen] at h; simp at h
  rw [if_neg hlen] at h
  refine ⟨by omega, ?_⟩
  intro c hc
  obtain ⟨p1, p2, p3, p4, p5, p6⟩ :=
    validateCueFormat_none c (firstCueErr_none h c hc)
  obtain ⟨b1, b2, b3, b4, b5, b6, b7⟩ := (hasDisallowed_none_iff _).mp p5
  exact ⟨p1, p2, p3, p4, b1, b2, b3, b4, b5, b6, b7, p6⟩

/-- C5 witness: the amended guarantees at a concrete accepted cue list. -/
theorem C5_cue_validation_witness :
    ((goodCues.map (fun x => (⟨trimList x.toList⟩ : String))).filter
        (fun s => s ≠ "")).length ≤ 2 ∧
    ∀ c ∈ (goodCues.map (fun x => (⟨trimList x.toList⟩ : String))).filter
        (fun s => s ≠ ""),
      trimList c.toList ≠ [] ∧
      startsWithIfWord (trimList c.toList) = true ∧
      matchesWordB ((trimList c.toList).map Char.toLower) "then" = true ∧
      sentenceCount (⟨trimList c.toList⟩ : String) = 1 ∧
      matchesWordB (lowerOf (⟨trimList c.toList⟩ : String)) "because" = false ∧
      matchesWordB (lowerOf (⟨trimList c.toList⟩ : String)) "so i think" = false ∧
      matchesWordB (lowerOf (⟨trimList c.toList⟩ : String)) "it must" = false ∧
      matchesWordB (lowerOf (⟨trimList c.toList⟩ : String)) "i think" = false ∧
      hasStandaloneDigits (lowerOf (⟨trimList c.toList⟩ : String)) = false ∧
      matchesWordStart (lowerOf (⟨trimList c.toList⟩ : String)) "diagnos" = false ∧
      matchesWordB (lowerOf (⟨trimList c.toList⟩ : String)) "red flag" = false ∧
      (trimList c.toList).length ≤ 260 :=
  C5_cue_validation goodCues (by decide)

/-! ### Record aggregation (C8) -/

/-- Membership in the seen-set loop: kept exactly when present in the input
and not already seen. -/
theorem uniqKeep_mem : ∀ (l seen : List String) (x : String),
    x ∈ uniqKeep l seen ↔ (x ∈ l ∧ x ∉ seen) := by
  intro l
  induction l with
  | nil => intro seen x; simp [uniqKeep]
  | cons s t ih =>
    intro seen x
    by_cases hs : seen.contains s
    · rw [show uniqKeep (s :: t) seen = uniqKeep t seen from by
        simp only [uniqKeep]; rw [if_pos hs], ih]
      have hsmem : s ∈ seen := by simpa [List.elem_iff] using hs
      constructor
      · rintro ⟨hx, hn⟩
        exact ⟨List.mem_cons_of_mem _ hx, hn⟩
      · rintro ⟨hx, hn⟩
        rcases List.mem_cons.mp hx with rfl | hx'
        · exact absurd hsmem hn
        · exact ⟨hx', hn⟩
    · rw [show uniqKeep (s :: t) seen = s :: uniqKeep t (s :: seen) from by
        simp only [uniqKeep]; rw [if_neg hs]]
      have hsnm : s ∉ seen := by
        intro hmem
        exact hs (by simpa [List.elem_iff] using hmem)
      constructor
      · intro hx
        rcases List.mem_cons.mp hx with rfl | hx'
        · exact ⟨List.mem_cons_self _ _, hsnm⟩
        · obtain ⟨h1, h2⟩ := (ih (s :: seen) x).mp hx'
          refine ⟨List.mem_cons_of_mem _ h1, ?_⟩
          intro hx2
          exact h2 (List.mem_cons_of_mem _ hx2)
      · rintro ⟨hx, hn⟩
        rcases List.mem_cons.mp hx with rfl | hx'
        · exact List.mem_cons_self _ _
        · by_cases hxs : x = s
          · subst hxs
            exact List.mem_cons_self _ _
          · exact List.mem_cons_of_mem _
              ((ih (s :: seen) x).mpr ⟨hx', by simp [hxs, hn]⟩)

/-- The seen-set loop never emits a value twice. -/
theorem uniqKeep_nodup : ∀ (l seen : List String), (uniqKeep l seen).Nodup := by
  intro l
  induction l with
  | nil => intro seen; simp [uniqKeep]
  | cons s t ih =>
    intro seen
    by_cases hs : seen.contains s
    · rw [show uniqKeep (s :: t) seen = uniqKeep t seen from by
        simp only [uniqKeep]; rw [if_pos hs]]
      exact ih seen
    · rw [show uniqKeep (s :: t) seen = s :: uniqKeep t (s :: seen) from by
        simp only [uniqKeep]; rw [if_neg hs]]
      refine List.nodup_cons.mpr ⟨?_, ih (s :: seen)⟩
      intro hmem
      exact ((uniqKeep_mem t (s :: seen) s).mp hmem).2 (List.mem_cons_self _ _)

/-- C8 counterexample: two records carrying the identical field value
`Alice` produce a `caseText` in which that value appears twice — the
per-identifier blob built by `getCaseText` concatenates the record texts
without any deduplication, so "the same field value appearing in multiple
records does not appear twice in the blob" fails as stated. -/
theorem C8_aggregation_counterexample :
    combineCaseText [recAlice, recAlice] =
      "Name: Alice\n\n---\n\nName: Alice" ∧
    countSubAt (combineCaseText [recAlice, recAlice]).toList
      "Alice".toList = 2 := by
  constructor
  · decide
  · decide

/-- C8 (amended): the per-identifier `caseText` is the plain concatenation
of the per-record texts (empty record texts dropped, the rest joined by the
record separator) — duplicate field values across records are kept, not
deduplicated; the empty string is the result when there are no records or
no non-empty values. Deduplication exists only in the instructions
pipeline's per-field aggregation: `uniqPreserve` keeps exactly the distinct
trimmed non-empty values (no repeats), which `joinManyIndexed` then joins,
yielding the empty string for an empty field. -/
theorem C8_aggregation (records : List (List (String × String)))
    (values : List String) :
    combineCaseText [] = "" ∧
    ((∀ r ∈ records, buildRecordText r = "") → combineCaseText records = "") ∧
    (uniqPreserve values).Nodup ∧
    (∀ s, s ∈ uniqPreserve values ↔
      (s ∈ values.map (fun x => (⟨trimList x.toList⟩ : String)) ∧ s ≠ "")) ∧
    joinManyIndexed [] = "" := by
  refine ⟨rfl, ?_, uniqKeep_nodup _ _, ?_, rfl⟩
  · intro hall
    unfold combineCaseText
    have hnil : (records.map buildRecordText).filter (fun t => t ≠ "") = [] := by
      rw [List.filter_eq_nil_iff]
      intro a ha
      obtain ⟨r, hr, rfl⟩ := List.mem_map.mp ha
      simp [hall r hr]
    rw [hnil]
    rfl
  · intro s
    unfold uniqPreserve
    rw [uniqKeep_mem]
    simp [List.mem_filter]

/-- C8 witness: the amended behaviour at one empty-valued record and one
value list with duplicates, blanks and padding. -/
theorem C8_aggregation_witness :
    combineCaseText [] = "" ∧
    combineCaseText [[("Name", "")]] = "" ∧
    (uniqPreserve ["a", " a", "", "b"]).Nodup ∧
    (∀ s, s ∈ uniqPreserve ["a", " a", "", "b"] ↔
      (s ∈ (["a", " a", "", "b"].map
        (fun x => (⟨trimList x.toList⟩ : String))) ∧ s ≠ "")) ∧
    joinManyIndexed [] = "" := by
  obtain ⟨h1, h2, h3, h4, h5⟩ :=
    C8_aggregation [[("Name", "")]] ["a", " a", "", "b"]
  exact ⟨h1, h2 (by decide), h3, h4, h5⟩

/-! ### Batch-driver loop guard (C10) -/

/-- With a `NaN` limit the guard is always false: the loop walks the whole
remaining range. -/
theorem driverGo_nan (maxCase : Nat) : ∀ n caseId count,
    maxCase + 1 - caseId = n →
    driverGo maxCase .nan caseId count =
      List.range' caseId (maxCase + 1 - caseId) := by
  intro n
  induction n with
  | zero =>
    intro caseId count hn
    rw [driverGo, if_pos (by omega : caseId > maxCase)]
    rw [show maxCase + 1 - caseId = 0 from by omega]
    rfl
  | succ n ih =>
    intro caseId count hn
    rw [driverGo, if_neg (by omega : ¬ caseId > maxCase),
      if_neg (by simp [jsGeLimit] : ¬ jsGeLimit count JSNum.nan = true),
      ih (caseId + 1) (count + 1) (by omega),
      show maxCase + 1 - caseId = (maxCase + 1 - (caseId + 1)) + 1 from by omega,
      List.range'_succ]

/-- With an integer limit the loop stops at the cap: the attempted count is
the smaller of the remaining budget and the remaining range. -/
theorem driverGo_int (maxCase : Nat) (k : Int) (hk : 0 ≤ k) :
    ∀ n caseId count, maxCase + 1 - caseId = n →
    (driverGo maxCase (.int k) caseId count).length =
      min (k.toNat - count) (maxCase + 1 - caseId) := by
  intro n
  induction n with
  | zero =>
    intro caseId count hn
    rw [driverGo, if_pos (by omega : caseId > maxCase)]
    simp
    omega
  | succ n ih =>
    intro caseId count hn
    rw [driverGo, if_neg (by omega : ¬ caseId > maxCase)]
    by_cases hge : jsGeLimit count (.int k) = true
    · rw [if_pos hge]
      simp only [jsGeLimit, ge_iff_le, decide_eq_true_eq] at hge
      simp
      omega
    · rw [if_neg hge]
      simp only [jsGeLimit, ge_iff_le, decide_eq_true_eq] at hge
      simp only [List.length_cons, ih (caseId + 1) (count + 1) (by omega)]
      omega

/-- C10: the per-invocation cap works only when the limit parses to a
number: with `Number(limit)` equal to `NaN` the guard `processed.length >=
limit` is always false and the driver attempts every case identifier from
`startFrom` through the maximum case id, while a (non-negative) numeric
limit `k` caps the attempted count at `k`. -/
theorem C10_nan_limit_no_cap (startFrom maxCase : Nat) (k : Int) (hk : 0 ≤ k) :
    runDriver startFrom maxCase .nan =
      List.range' startFrom (maxCase + 1 - startFrom) ∧
    (runDriver startFrom maxCase (.int k)).length =
      min k.toNat (maxCase + 1 - startFrom) := by
  constructor
  · exact driverGo_nan maxCase _ startFrom 0 rfl
  · have h := driverGo_int maxCase k hk _ startFrom 0 rfl
    simpa using h

/-- C10 witness: range 1..3 with `limit=abc` (NaN) attempts all three cases;
with limit 2 it attempts two. -/
theorem C10_nan_limit_no_cap_witness :
    runDriver 1 3 .nan = List.range' 1 (3 + 1 - 1) ∧
    (runDriver 1 3 (.int 2)).length = min (Int.toNat 2) (3 + 1 - 1) :=
  C10_nan_limit_no_cap 1 3 2 (by norm_num)

end CaseImages
